import Mathlib

/-!
Verification of `src/deps/v8/src/compiler/turboshaft/sidetable.h`.

The header defines two container templates, `detail::GrowingSidetable` and
`detail::FixedSidetable`, both backed by a `ZoneVector<T>` named `table_`,
and four public specializations: `GrowingBlockSidetable`,
`FixedBlockSidetable`, `GrowingOpIndexSidetable` and `FixedOpIndexSidetable`.
We embed the backing vector as a `List T` with `[Inhabited T]` supplying the
value of `T{}` (value initialization).  `std::vector::resize` is embedded
faithfully as `listResize` (truncate or pad with default-constructed
elements), and the model takes the allocator-granted capacity to coincide
with the requested size, so the second `resize(table_.capacity())` in the
source is the identity (proved as `listResize_self`).
-/

namespace Sidetable

/-- Embedding of `std::vector<T>::resize(n)`: keep the first `n` elements,
padding with value-initialized (`T{}`, i.e. `default`) elements when `n`
exceeds the current length. -/
def listResize {T : Type} [Inhabited T] (l : List T) (n : Nat) : List T :=
  l.take n ++ List.replicate (n - l.length) default

/-- Embedding of `detail::GrowingSidetable::NextSize`:
`return out_of_bounds_index + out_of_bounds_index / 2 + 32;` -/
def NextSize (outOfBoundsIndex : Nat) : Nat :=
  outOfBoundsIndex + outOfBoundsIndex / 2 + 32

/-- State of `detail::GrowingSidetable<T, Key>`: the backing
`ZoneVector<T> table_`.  The zone allocator only affects where memory
lives, not the stored values, so it is not part of the state. -/
structure GrowingSidetable (T : Type) where
  table : List T
  deriving DecidableEq

/-- Embedding of `explicit GrowingSidetable(Zone* zone) : table_(zone) {}`:
the table starts with no elements. -/
def GrowingSidetable.fresh (T : Type) : GrowingSidetable T := ⟨[]⟩

/-- The growth step performed by `GrowingSidetable::operator[]` before the
element is returned:
`if (V8_UNLIKELY(i >= table_.size())) { table_.resize(NextSize(i));
table_.resize(table_.capacity()); }`.
Capacity is modelled as the length actually granted, so the second resize
is the identity on the model. -/
def GrowingSidetable.grow {T : Type} [Inhabited T]
    (s : GrowingSidetable T) (i : Nat) : GrowingSidetable T :=
  if s.table.length ≤ i then
    let t1 := listResize s.table (NextSize i)
    ⟨listResize t1 t1.length⟩
  else s

/-- Embedding of `T& operator[](Key index)` (mutable overload), read
through: grows if needed, then yields the value of slot `index.id()`
together with the updated table state. -/
def GrowingSidetable.access {T : Type} [Inhabited T]
    (s : GrowingSidetable T) (i : Nat) : T × GrowingSidetable T :=
  let s1 := s.grow i
  (s1.table.getD i default, s1)

/-- Embedding of `const T& operator[](Key index) const`: the body is
textually identical to the mutable overload (it may still resize, because
`table_` is declared `mutable`).  Embedded separately so the equivalence
with the mutable overload is a theorem, not a definition. -/
def GrowingSidetable.accessConst {T : Type} [Inhabited T]
    (s : GrowingSidetable T) (i : Nat) : T × GrowingSidetable T :=
  let s1 :=
    if s.table.length ≤ i then
      let t1 := listResize s.table (NextSize i)
      (⟨listResize t1 t1.length⟩ : GrowingSidetable T)
    else s
  (s1.table.getD i default, s1)

/-- Writing through the reference returned by `operator[]`:
`table[k] = v` first runs the growth step of `operator[]`, then stores
`v` in slot `k`. -/
def GrowingSidetable.write {T : Type} [Inhabited T]
    (s : GrowingSidetable T) (i : Nat) (v : T) : GrowingSidetable T :=
  ⟨(s.grow i).table.set i v⟩

/-- Embedding of
`void Reset() { std::fill(table_.begin(), table_.end(), T{}); }` -/
def GrowingSidetable.Reset {T : Type} [Inhabited T]
    (s : GrowingSidetable T) : GrowingSidetable T :=
  ⟨s.table.map (fun _ => default)⟩

/-- Embedding of `bool empty() const { return table_.empty(); }` -/
def GrowingSidetable.empty {T : Type} (s : GrowingSidetable T) : Bool :=
  s.table.isEmpty

/-- State of `detail::FixedSidetable<T, Key>`: a fixed-size table backed by
`ZoneVector<T> table_`; it never grows. -/
structure FixedSidetable (T : Type) where
  table : List T
  deriving DecidableEq

/-- Embedding of
`explicit FixedSidetable(size_t size, Zone* zone) : table_(size, zone)`:
all `size` slots are value-initialized. -/
def FixedSidetable.create (T : Type) [Inhabited T] (size : Nat) :
    FixedSidetable T := ⟨List.replicate size default⟩

/-- Embedding of
`FixedSidetable(size_t size, const T& default_value, Zone* zone)`:
all `size` slots hold `default_value`. -/
def FixedSidetable.createFilled (T : Type) (size : Nat) (defaultValue : T) :
    FixedSidetable T := ⟨List.replicate size defaultValue⟩

/-- The debug-build bounds check of `FixedSidetable::operator[]`:
`DCHECK_LT(op.id(), table_.size())`. -/
def FixedSidetable.boundsCheck {T : Type} (s : FixedSidetable T) (i : Nat) :
    Bool := decide (i < s.table.length)

/-- Embedding of `operator[]` of `FixedSidetable`, read through: returns
the slot value; the table state is untouched by an access. -/
def FixedSidetable.read {T : Type} [Inhabited T] (s : FixedSidetable T)
    (i : Nat) : T := s.table.getD i default

/-- Writing through the reference returned by
`FixedSidetable::operator[]`. -/
def FixedSidetable.write {T : Type} (s : FixedSidetable T) (i : Nat) (v : T) :
    FixedSidetable T := ⟨s.table.set i v⟩

/-- Model of `OpIndex` (declared in operations.h, outside the given
sources): a dense integer handle.  `id` is `OpIndex::id()`; `valid` is
`OpIndex::valid()` (false exactly for the invalid sentinel).  `graphId`
identifies the graph instance the index was drawn from; it exists only to
model the debug-build graph-binding check (see
`OpIndexBelongsToTableGraph`). -/
structure OpIndex where
  id : Nat
  graphId : Nat
  valid : Bool
  deriving DecidableEq

/-- Modelled from the spec: `OpIndexBelongsToTableGraph` is only declared in
sidetable.h; its definition is not among the given sources.  The spec says
the node-keyed tables check "that the supplied identifier belongs to the
graph instance recorded at construction time", so the model compares the
graph identity the index was drawn from with the table's recorded graph. -/
def OpIndexBelongsToTableGraph (graph : Nat) (index : OpIndex) : Bool :=
  index.graphId == graph

/-- State of `GrowingOpIndexSidetable<T>`: the growing container plus the
debug-only back-reference `const Graph* graph_` (modelled as a graph
identity). -/
structure GrowingOpIndexSidetable (T : Type) where
  base : GrowingSidetable T
  graph : Nat
  deriving DecidableEq

/-- The debug-build check performed on every access of
`GrowingOpIndexSidetable::operator[]`:
`DCHECK(OpIndexBelongsToTableGraph(graph_, index))`. -/
def GrowingOpIndexSidetable.accessCheck {T : Type}
    (s : GrowingOpIndexSidetable T) (index : OpIndex) : Bool :=
  OpIndexBelongsToTableGraph s.graph index

/-- Embedding of `GrowingOpIndexSidetable::operator[]`, read through:
delegates to `Base::operator[](index)` (which uses `index.id()`). -/
def GrowingOpIndexSidetable.access {T : Type} [Inhabited T]
    (s : GrowingOpIndexSidetable T) (index : OpIndex) :
    T × GrowingOpIndexSidetable T :=
  let r := s.base.access index.id
  (r.1, ⟨r.2, s.graph⟩)

/-- Writing through `GrowingOpIndexSidetable::operator[]`. -/
def GrowingOpIndexSidetable.write {T : Type} [Inhabited T]
    (s : GrowingOpIndexSidetable T) (index : OpIndex) (v : T) :
    GrowingOpIndexSidetable T :=
  ⟨s.base.write index.id v, s.graph⟩

/-- Embedding of `void SwapData(GrowingOpIndexSidetable<T>& other) {
std::swap(table_, other.table_); }` — only the backing storage moves;
the `graph_` fields stay with their tables. -/
def GrowingOpIndexSidetable.SwapData {T : Type}
    (a b : GrowingOpIndexSidetable T) :
    GrowingOpIndexSidetable T × GrowingOpIndexSidetable T :=
  (⟨b.base, a.graph⟩, ⟨a.base, b.graph⟩)

/-- State of `FixedOpIndexSidetable<T>`: the fixed container plus the
debug-only `const Graph* graph_`. -/
structure FixedOpIndexSidetable (T : Type) where
  base : FixedSidetable T
  graph : Nat
  deriving DecidableEq

/-- The debug-build check performed on every access of
`FixedOpIndexSidetable::operator[]`. -/
def FixedOpIndexSidetable.accessCheck {T : Type}
    (s : FixedOpIndexSidetable T) (index : OpIndex) : Bool :=
  OpIndexBelongsToTableGraph s.graph index

/-- Embedding of `FixedOpIndexSidetable::operator[]`, read through. -/
def FixedOpIndexSidetable.read {T : Type} [Inhabited T]
    (s : FixedOpIndexSidetable T) (index : OpIndex) : T :=
  s.base.read index.id

/-- Embedding of `void SwapData(FixedOpIndexSidetable<T>& other) {
std::swap(table_, other.table_); }` -/
def FixedOpIndexSidetable.SwapData {T : Type}
    (a b : FixedOpIndexSidetable T) :
    FixedOpIndexSidetable T × FixedOpIndexSidetable T :=
  (⟨b.base, a.graph⟩, ⟨a.base, b.graph⟩)

/-- State of `GrowingBlockSidetable<T>`: a pass-through wrapper over the
growing container, keyed by `BlockIndex` (its `id()` modelled as `Nat`). -/
structure GrowingBlockSidetable (T : Type) where
  base : GrowingSidetable T
  deriving DecidableEq

/-- Access on `GrowingBlockSidetable`: it inherits `operator[]` unchanged
from `detail::GrowingSidetable` — no additional check, no added behavior. -/
def GrowingBlockSidetable.access {T : Type} [Inhabited T]
    (s : GrowingBlockSidetable T) (i : Nat) : T × GrowingBlockSidetable T :=
  let r := s.base.access i
  (r.1, ⟨r.2⟩)

/-- State of `FixedBlockSidetable<T>`: a pass-through wrapper over the
fixed container. -/
structure FixedBlockSidetable (T : Type) where
  base : FixedSidetable T
  deriving DecidableEq

/-- Access on `FixedBlockSidetable`: it inherits `operator[]` unchanged
from `detail::FixedSidetable`. -/
def FixedBlockSidetable.read {T : Type} [Inhabited T]
    (s : FixedBlockSidetable T) (i : Nat) : T :=
  s.base.read i

/-- One client operation on a growing sidetable within a phase: a read
through `operator[]`, a write through `operator[]`, or a `Reset()` call.
The key is given by its `id()`. -/
inductive PhaseOp (T : Type) where
  | readAt (i : Nat)
  | writeAt (i : Nat) (v : T)
  | resetTable
  deriving DecidableEq

/-- Whether a phase operation is a `Reset()` call. -/
def PhaseOp.isReset {T : Type} : PhaseOp T → Bool
  | .resetTable => true
  | _ => false

/-- The key id a phase operation indexes through `operator[]`, if any. -/
def PhaseOp.touches {T : Type} : PhaseOp T → Option Nat
  | .readAt i => some i
  | .writeAt i _ => some i
  | .resetTable => none

/-- Effect of one phase operation on the table state. -/
def stepPhase {T : Type} [Inhabited T] (s : GrowingSidetable T) :
    PhaseOp T → GrowingSidetable T
  | .readAt i => (s.access i).2
  | .writeAt i v => s.write i v
  | .resetTable => s.Reset

/-- Effect of a sequence of phase operations, applied left to right. -/
def runPhase {T : Type} [Inhabited T] (s : GrowingSidetable T) :
    List (PhaseOp T) → GrowingSidetable T
  | [] => s
  | op :: rest => runPhase (stepPhase s op) rest

/-- Specification-side account of a reset-free access sequence: the value
last written to each key, if any, accumulated over an initial map `m`. -/
def lastWrites {T : Type} : List (PhaseOp T) → (Nat → Option T) → Nat →
    Option T
  | [], m, k => m k
  | .readAt _ :: rest, m, k => lastWrites rest m k
  | .writeAt i v :: rest, m, k =>
      lastWrites rest (fun j => if j = i then some v else m j) k
  | .resetTable :: rest, m, k => lastWrites rest m k

/-! ## List helper lemmas -/

lemma getD_append_replicate {T : Type} (l : List T) (m k : Nat) (d : T) :
    (l ++ List.replicate m d).getD k d = l.getD k d := by
  induction l generalizing k with
  | nil =>
    simp only [List.nil_append]
    induction m generalizing k with
    | zero => rfl
    | succ m ih =>
      cases k with
      | zero => simp [List.replicate_succ]
      | succ k => rw [List.replicate_succ, List.getD_cons_succ]; exact ih k
  | cons a l ih =>
    cases k with
    | zero => rfl
    | succ k => simpa using ih k

lemma getD_set_self {T : Type} (l : List T) (i : Nat) (v d : T)
    (h : i < l.length) : (l.set i v).getD i d = v := by
  induction l generalizing i with
  | nil => simp at h
  | cons a l ih =>
    cases i with
    | zero => rfl
    | succ i => simpa using ih i (by simpa using h)

lemma getD_set_ne {T : Type} (l : List T) (i k : Nat) (v d : T)
    (h : k ≠ i) : (l.set i v).getD k d = l.getD k d := by
  induction l generalizing i k with
  | nil => simp [List.set]
  | cons a l ih =>
    cases i with
    | zero =>
      cases k with
      | zero => exact absurd rfl h
      | succ k => rfl
    | succ i =>
      cases k with
      | zero => rfl
      | succ k => simpa using ih i k (fun hk => h (by omega))

lemma getD_eq_default_of_le {T : Type} (l : List T) (k : Nat) (d : T)
    (h : l.length ≤ k) : l.getD k d = d := by
  induction l generalizing k with
  | nil => cases k <;> rfl
  | cons a l ih =>
    cases k with
    | zero => simp at h
    | succ k => simpa using ih k (by simpa using h)

lemma getD_replicate_self {T : Type} (n k : Nat) (d : T) :
    (List.replicate n d).getD k d = d := by
  induction n generalizing k with
  | zero => cases k <;> rfl
  | succ n ih =>
    cases k with
    | zero => simp [List.replicate_succ]
    | succ k => rw [List.replicate_succ, List.getD_cons_succ]; exact ih k

lemma getD_map_const {T : Type} (l : List T) (k : Nat) (d : T) :
    (l.map (fun _ => d)).getD k d = d := by
  induction l generalizing k with
  | nil => cases k <;> rfl
  | cons a l ih =>
    cases k with
    | zero => rfl
    | succ k => rw [List.map_cons, List.getD_cons_succ]; exact ih k

lemma listResize_self {T : Type} [Inhabited T] (l : List T) :
    listResize l l.length = l := by
  simp [listResize]

lemma listResize_eq_append {T : Type} [Inhabited T] (l : List T) (n : Nat)
    (h : l.length ≤ n) :
    listResize l n = l ++ List.replicate (n - l.length) default := by
  simp [listResize, List.take_of_length_le h]

lemma length_listResize {T : Type} [Inhabited T] (l : List T) (n : Nat)
    (h : l.length ≤ n) : (listResize l n).length = n := by
  rw [listResize_eq_append l n h]
  simp
  omega

/-! ## Growth-step lemmas -/

namespace GrowingSidetable

variable {T : Type} [Inhabited T]

lemma nextSize_gt (i : Nat) : i < NextSize i := by
  simp [NextSize]
  omega

lemma grow_table_eq (s : GrowingSidetable T) (i : Nat)
    (h : s.table.length ≤ i) :
    (s.grow i).table
      = s.table ++ List.replicate (NextSize i - s.table.length) default := by
  have hle : s.table.length ≤ NextSize i :=
    Nat.le_trans h (Nat.le_of_lt (nextSize_gt i))
  simp only [grow, if_pos h]
  rw [listResize_self, listResize_eq_append _ _ hle]

lemma grow_eq_of_lt (s : GrowingSidetable T) (i : Nat)
    (h : i < s.table.length) : s.grow i = s := by
  simp [grow, Nat.not_le.mpr h]

lemma length_grow_of_le (s : GrowingSidetable T) (i : Nat)
    (h : s.table.length ≤ i) : (s.grow i).table.length = NextSize i := by
  have hle : s.table.length ≤ NextSize i :=
    Nat.le_trans h (Nat.le_of_lt (nextSize_gt i))
  rw [grow_table_eq s i h]
  simp
  omega

lemma length_grow_ge (s : GrowingSidetable T) (i : Nat) :
    s.table.length ≤ (s.grow i).table.length := by
  rcases Nat.lt_or_ge i s.table.length with h | h
  · rw [grow_eq_of_lt s i h]
  · rw [length_grow_of_le s i h]
    exact Nat.le_trans h (Nat.le_of_lt (nextSize_gt i))

lemma lt_length_grow (s : GrowingSidetable T) (i : Nat) :
    i < (s.grow i).table.length := by
  rcases Nat.lt_or_ge i s.table.length with h | h
  · rw [grow_eq_of_lt s i h]; exact h
  · rw [length_grow_of_le s i h]; exact nextSize_gt i

lemma grow_getD (s : GrowingSidetable T) (i k : Nat) :
    (s.grow i).table.getD k default = s.table.getD k default := by
  rcases Nat.lt_or_ge i s.table.length with h | h
  · rw [grow_eq_of_lt s i h]
  · rw [grow_table_eq s i h, getD_append_replicate]

/-! ## Phase-run lemmas -/

lemma length_stepPhase_ge (s : GrowingSidetable T) (op : PhaseOp T) :
    s.table.length ≤ (stepPhase s op).table.length := by
  cases op with
  | readAt i => simpa [stepPhase, access] using length_grow_ge s i
  | writeAt i v =>
    simpa [stepPhase, write] using length_grow_ge s i
  | resetTable => simp [stepPhase, Reset]

lemma length_runPhase_ge (ops : List (PhaseOp T)) (s : GrowingSidetable T) :
    s.table.length ≤ (runPhase s ops).table.length := by
  induction ops generalizing s with
  | nil => exact Nat.le_refl _
  | cons op rest ih =>
    exact Nat.le_trans (length_stepPhase_ge s op) (ih (stepPhase s op))

lemma touches_lt_length_stepPhase (s : GrowingSidetable T) (op : PhaseOp T)
    (i : Nat) (h : op.touches = some i) :
    i < (stepPhase s op).table.length := by
  cases op with
  | readAt j =>
    cases h
    simpa [stepPhase, access] using lt_length_grow s i
  | writeAt j v =>
    cases h
    simpa [stepPhase, write] using lt_length_grow s i
  | resetTable => cases h

lemma touches_lt_length_runPhase (ops : List (PhaseOp T))
    (s : GrowingSidetable T) (op : PhaseOp T) (hmem : op ∈ ops) (i : Nat)
    (h : op.touches = some i) : i < (runPhase s ops).table.length := by
  induction ops generalizing s with
  | nil => cases hmem
  | cons op0 rest ih =>
    rcases List.mem_cons.mp hmem with rfl | hmem0
    · exact Nat.lt_of_lt_of_le (touches_lt_length_stepPhase s op i h)
        (length_runPhase_ge rest (stepPhase s op))
    · exact ih (stepPhase s op0) hmem0

lemma runPhase_getD (ops : List (PhaseOp T)) (s : GrowingSidetable T)
    (m : Nat → Option T) (hres : ∀ op ∈ ops, op.isReset = false)
    (h : ∀ k, s.table.getD k default = (m k).getD default) :
    ∀ k, (runPhase s ops).table.getD k default
      = (lastWrites ops m k).getD default := by
  induction ops generalizing s m with
  | nil => exact h
  | cons op rest ih =>
    have hres0 : op.isReset = false := hres op (List.mem_cons_self op rest)
    have hrest : ∀ op2 ∈ rest, PhaseOp.isReset op2 = false :=
      fun op2 h2 => hres op2 (List.mem_cons_of_mem op h2)
    cases op with
    | readAt i =>
      refine ih (stepPhase s (.readAt i)) m hrest ?_
      intro k
      simpa [stepPhase, access] using (grow_getD s i k).trans (h k)
    | writeAt i v =>
      refine ih (stepPhase s (.writeAt i v)) _ hrest ?_
      intro k
      by_cases hk : k = i
      · subst hk
        simp only [stepPhase, write]
        rw [getD_set_self _ _ _ _ (lt_length_grow s k)]
        simp
      · simp only [stepPhase, write]
        rw [getD_set_ne _ _ _ _ _ hk, grow_getD, h k]
        simp [hk]
    | resetTable => simp [PhaseOp.isReset] at hres0

lemma empty_runPhase (ops : List (PhaseOp T)) :
    (runPhase (fresh T) ops).empty
      = ops.all (fun op => op.isReset) := by
  induction ops with
  | nil => rfl
  | cons op rest ih =>
    cases op with
    | readAt i =>
      have hpos : 0 < (runPhase (stepPhase (fresh T) (.readAt i)) rest).table.length := by
        refine Nat.lt_of_lt_of_le ?_
          (length_runPhase_ge rest (stepPhase (fresh T) (.readAt i)))
        have hi := lt_length_grow (fresh T) i
        simp only [stepPhase, access]
        omega
      simp only [runPhase, List.all_cons, PhaseOp.isReset, Bool.false_and]
      simp only [empty]
      cases hl : (runPhase (stepPhase (fresh T) (.readAt i)) rest).table with
      | nil => rw [hl] at hpos; simp at hpos
      | cons a l => rfl
    | writeAt i v =>
      have hpos : 0 < (runPhase (stepPhase (fresh T) (.writeAt i v)) rest).table.length := by
        refine Nat.lt_of_lt_of_le ?_
          (length_runPhase_ge rest (stepPhase (fresh T) (.writeAt i v)))
        have hi := lt_length_grow (fresh T) i
        simp only [stepPhase, write, List.length_set]
        omega
      simp only [runPhase, List.all_cons, PhaseOp.isReset, Bool.false_and]
      simp only [empty]
      cases hl : (runPhase (stepPhase (fresh T) (.writeAt i v)) rest).table with
      | nil => rw [hl] at hpos; simp at hpos
      | cons a l => rfl
    | resetTable =>
      have hstep : stepPhase (fresh T) (.resetTable) = fresh T := rfl
      simp only [runPhase, hstep, List.all_cons, PhaseOp.isReset,
        Bool.true_and, ih]

end GrowingSidetable

end Sidetable

open Sidetable

/-! ## Claim theorems -/

/-- C1: For a growing sidetable, for every sequence of accesses (reads and
writes through `operator[]`), reading a key whose slot was never written
returns the default value of `T`, and reading a key whose slot was written
returns the last value written to it, even when growth-triggering accesses
to larger keys occur in between. -/
theorem sidetable_growth_correctness {T : Type} [Inhabited T]
    (ops : List (PhaseOp T)) (k : Nat)
    (hacc : ∀ op ∈ ops, op.isReset = false) :
    (lastWrites ops (fun _ => none) k = none →
      ((runPhase (GrowingSidetable.fresh T) ops).access k).1 = default) ∧
    (∀ v, lastWrites ops (fun _ => none) k = some v →
      ((runPhase (GrowingSidetable.fresh T) ops).access k).1 = v) := by
  have hbase : ∀ j, (GrowingSidetable.fresh T).table.getD j default
      = ((fun _ => (none : Option T)) j).getD default := by
    intro j
    rw [getD_eq_default_of_le _ _ _ (Nat.zero_le j)]
    rfl
  have hmain := GrowingSidetable.runPhase_getD ops (GrowingSidetable.fresh T)
    (fun _ => none) hacc hbase k
  have hread : ((runPhase (GrowingSidetable.fresh T) ops).access k).1
      = (runPhase (GrowingSidetable.fresh T) ops).table.getD k default := by
    have h1 : ((runPhase (GrowingSidetable.fresh T) ops).access k).1
        = ((runPhase (GrowingSidetable.fresh T) ops).grow k).table.getD k
            default := rfl
    rw [h1, GrowingSidetable.grow_getD]
  constructor
  · intro hnone
    rw [hread, hmain, hnone]
    rfl
  · intro v hv
    rw [hread, hmain, hv]
    rfl

/-- Witness for C1: after writing 5 then 7 to key 2 with a growth-triggering
read of key 100 in between, key 2 reads back 7 and the never-written key 50
reads back the default value 0. -/
theorem sidetable_growth_correctness_witness :
    ((runPhase (GrowingSidetable.fresh Nat)
        [PhaseOp.writeAt 2 5, PhaseOp.readAt 100,
         PhaseOp.writeAt 2 7]).access 2).1 = 7 ∧
    ((runPhase (GrowingSidetable.fresh Nat)
        [PhaseOp.writeAt 2 5, PhaseOp.readAt 100,
         PhaseOp.writeAt 2 7]).access 50).1 = 0 :=
  ⟨(sidetable_growth_correctness _ 2 (by decide)).2 7 (by decide),
   (sidetable_growth_correctness _ 50 (by decide)).1 (by decide)⟩

/-- C2: accessing a key with id `i` at or beyond the current size grows the
table so that the resulting size is at least `i + i/2 + 32`,
default-constructing all newly added slots; accessing a key with id below
the current size performs no growth. -/
theorem sidetable_growth_formula {T : Type} [Inhabited T]
    (s : GrowingSidetable T) (i : Nat) :
    (s.table.length ≤ i →
        i + i / 2 + 32 ≤ (s.access i).2.table.length ∧
        ∀ k, s.table.length ≤ k →
          (s.access i).2.table.getD k default = default) ∧
    (i < s.table.length → (s.access i).2 = s) := by
  have hsnd : (s.access i).2 = s.grow i := rfl
  constructor
  · intro h
    constructor
    · rw [hsnd, GrowingSidetable.length_grow_of_le s i h]
      exact Nat.le_refl _
    · intro k hk
      rw [hsnd, GrowingSidetable.grow_getD]
      exact getD_eq_default_of_le _ _ _ hk
  · intro h
    rw [hsnd, GrowingSidetable.grow_eq_of_lt s i h]

/-- Witness for C2: accessing key 100 on an empty table yields size at
least 182 with slot 5 still default; accessing key 2 on a table of size 5
leaves the table unchanged. -/
theorem sidetable_growth_formula_witness :
    (182 ≤ ((GrowingSidetable.fresh Nat).access 100).2.table.length ∧
     ((GrowingSidetable.fresh Nat).access 100).2.table.getD 5 0 = 0) ∧
    ((GrowingSidetable.mk (List.replicate 5 (0 : Nat))).access 2).2
      = GrowingSidetable.mk (List.replicate 5 (0 : Nat)) :=
  ⟨⟨((sidetable_growth_formula (GrowingSidetable.fresh Nat) 100).1
        (by decide)).1,
    ((sidetable_growth_formula (GrowingSidetable.fresh Nat) 100).1
        (by decide)).2 5 (by decide)⟩,
   (sidetable_growth_formula
      (GrowingSidetable.mk (List.replicate 5 (0 : Nat))) 2).2 (by decide)⟩

/-- C3: `Reset` overwrites every slot in `[0, size())` with the default
value of `T`, leaves the size unchanged, and is idempotent: calling it
twice yields the same table state as calling it once. -/
theorem sidetable_reset_spec {T : Type} [Inhabited T]
    (s : GrowingSidetable T) :
    (s.Reset).table.length = s.table.length ∧
    (∀ k, k < s.table.length → (s.Reset).table.getD k default = default) ∧
    s.Reset.Reset = s.Reset := by
  refine ⟨?_, ?_, ?_⟩
  · simp [GrowingSidetable.Reset]
  · intro k hk
    simp only [GrowingSidetable.Reset]
    exact getD_map_const _ _ _
  · simp [GrowingSidetable.Reset, List.map_map, Function.comp]

/-- Witness for C3: resetting a table holding `[3, 4, 5]` zeroes slot 1. -/
theorem sidetable_reset_spec_witness :
    ((GrowingSidetable.mk [(3 : Nat), 4, 5]).Reset).table.getD 1 0 = 0 :=
  (sidetable_reset_spec (GrowingSidetable.mk [(3 : Nat), 4, 5])).2.1 1
    (by decide)

/-- C4: `empty()` is true only if the table has never been grown: starting
from a fresh table, a run of phase operations ends in an empty table
exactly when every operation was a `Reset` — so a reset-but-never-grown
table reports empty, and a grown table reports non-empty even after
`Reset`. -/
theorem sidetable_emptiness {T : Type} [Inhabited T]
    (ops : List (PhaseOp T)) :
    (runPhase (GrowingSidetable.fresh T) ops).empty
      = ops.all (fun op => op.isReset) :=
  GrowingSidetable.empty_runPhase ops

/-- C5: `SwapData` exchanges the entire contents of two same-kind
node-keyed sidetables with no precondition on their sizes: afterwards
reading any key from one returns what the other previously held, the sizes
are swapped, and swapping twice restores both tables (growing and fixed
variants). -/
theorem sidetable_swap_correctness {T : Type} [Inhabited T]
    (a b : GrowingOpIndexSidetable T) (c d : FixedOpIndexSidetable T)
    (idx : OpIndex) :
    ((GrowingOpIndexSidetable.SwapData a b).1.access idx).1
        = (b.access idx).1 ∧
    ((GrowingOpIndexSidetable.SwapData a b).2.access idx).1
        = (a.access idx).1 ∧
    (GrowingOpIndexSidetable.SwapData a b).1.base.table.length
        = b.base.table.length ∧
    (GrowingOpIndexSidetable.SwapData a b).2.base.table.length
        = a.base.table.length ∧
    GrowingOpIndexSidetable.SwapData (GrowingOpIndexSidetable.SwapData a b).1
        (GrowingOpIndexSidetable.SwapData a b).2 = (a, b) ∧
    (FixedOpIndexSidetable.SwapData c d).1.read idx = d.read idx ∧
    (FixedOpIndexSidetable.SwapData c d).2.read idx = c.read idx ∧
    (FixedOpIndexSidetable.SwapData c d).1.base.table.length
        = d.base.table.length ∧
    (FixedOpIndexSidetable.SwapData c d).2.base.table.length
        = c.base.table.length ∧
    FixedOpIndexSidetable.SwapData (FixedOpIndexSidetable.SwapData c d).1
        (FixedOpIndexSidetable.SwapData c d).2 = (c, d) :=
  ⟨rfl, rfl, rfl, rfl, rfl, rfl, rfl, rfl, rfl, rfl⟩

/-- C6: for a fixed sidetable of capacity `N`, accessing any key with id in
`[0, N)` passes the debug bounds check and returns a default-initialized
slot if never written; a key with id at or above `N` fails the debug-only
bounds check; and the table never grows — reads leave the state untouched
by construction and writes never change the size. -/
theorem sidetable_fixed_bounds {T : Type} [Inhabited T] (N i : Nat)
    (s : FixedSidetable T) (v : T) :
    (i < N → (FixedSidetable.create T N).boundsCheck i = true ∧
        (FixedSidetable.create T N).read i = default) ∧
    (N ≤ i → (FixedSidetable.create T N).boundsCheck i = false) ∧
    (s.write i v).table.length = s.table.length := by
  refine ⟨?_, ?_, ?_⟩
  · intro h
    refine ⟨?_, ?_⟩
    · simp [FixedSidetable.boundsCheck, FixedSidetable.create, h]
    · exact getD_replicate_self N i default
  · intro h
    have hn : ¬ i < N := Nat.not_lt.mpr h
    simp [FixedSidetable.boundsCheck, FixedSidetable.create, hn]
  · simp [FixedSidetable.write]

/-- Witness for C6: in a fixed table of capacity 3, key 1 passes the bounds
check and reads the default 0, key 5 fails the bounds check, and a write
leaves the size of a 2-slot table at 2. -/
theorem sidetable_fixed_bounds_witness :
    ((FixedSidetable.create Nat 3).boundsCheck 1 = true ∧
     (FixedSidetable.create Nat 3).read 1 = 0) ∧
    (FixedSidetable.create Nat 3).boundsCheck 5 = false ∧
    ((FixedSidetable.mk [(7 : Nat), 8]).write 0 9).table.length
      = (FixedSidetable.mk [(7 : Nat), 8]).table.length :=
  ⟨(sidetable_fixed_bounds 3 1 (FixedSidetable.mk [(7 : Nat), 8]) 9).1
      (by decide),
   (sidetable_fixed_bounds 3 5 (FixedSidetable.mk [(7 : Nat), 8]) 9).2.1
      (by decide),
   (sidetable_fixed_bounds 3 0 (FixedSidetable.mk [(7 : Nat), 8]) 9).2.2⟩

/-- C7: node-keyed sidetables check on every access (in debug builds) that
the supplied identifier belongs to the graph instance recorded at
construction: the check fails exactly when the identifier's graph differs;
block-keyed sidetables perform no such check and add no behavior over the
generic container. -/
theorem sidetable_graph_binding {T : Type} [Inhabited T]
    (s : GrowingOpIndexSidetable T) (t : FixedOpIndexSidetable T)
    (idx : OpIndex) (bg : GrowingBlockSidetable T)
    (bf : FixedBlockSidetable T) (i : Nat) :
    (idx.graphId ≠ s.graph → s.accessCheck idx = false) ∧
    (idx.graphId = s.graph → s.accessCheck idx = true) ∧
    (idx.graphId ≠ t.graph → t.accessCheck idx = false) ∧
    (idx.graphId = t.graph → t.accessCheck idx = true) ∧
    (bg.access i).1 = (bg.base.access i).1 ∧
    (bg.access i).2.base = (bg.base.access i).2 ∧
    bf.read i = bf.base.read i := by
  refine ⟨?_, ?_, ?_, ?_, rfl, rfl, rfl⟩
  · intro h
    simpa [GrowingOpIndexSidetable.accessCheck,
      OpIndexBelongsToTableGraph] using h
  · intro h
    simpa [GrowingOpIndexSidetable.accessCheck,
      OpIndexBelongsToTableGraph] using h
  · intro h
    simpa [FixedOpIndexSidetable.accessCheck,
      OpIndexBelongsToTableGraph] using h
  · intro h
    simpa [FixedOpIndexSidetable.accessCheck,
      OpIndexBelongsToTableGraph] using h

/-- Witness for C7: a table bound to graph 1 flags an index drawn from
graph 2, and a table bound to graph 3 accepts an index drawn from
graph 3. -/
theorem sidetable_graph_binding_witness :
    (GrowingOpIndexSidetable.mk (GrowingSidetable.fresh Nat) 1).accessCheck
        (OpIndex.mk 0 2 true) = false ∧
    (FixedOpIndexSidetable.mk (FixedSidetable.create Nat 4) 3).accessCheck
        (OpIndex.mk 0 3 true) = true :=
  ⟨(sidetable_graph_binding
      (GrowingOpIndexSidetable.mk (GrowingSidetable.fresh Nat) 1)
      (FixedOpIndexSidetable.mk (FixedSidetable.create Nat 4) 3)
      (OpIndex.mk 0 2 true)
      (GrowingBlockSidetable.mk (GrowingSidetable.fresh Nat))
      (FixedBlockSidetable.mk (FixedSidetable.create Nat 4)) 0).1
      (by decide),
   (sidetable_graph_binding
      (GrowingOpIndexSidetable.mk (GrowingSidetable.fresh Nat) 1)
      (FixedOpIndexSidetable.mk (FixedSidetable.create Nat 4) 3)
      (OpIndex.mk 0 3 true)
      (GrowingBlockSidetable.mk (GrowingSidetable.fresh Nat))
      (FixedBlockSidetable.mk (FixedSidetable.create Nat 4)) 0).2.2.2.1
      (by decide)⟩

/-- C8: after any sequence of accesses and `Reset` calls, the size is at
least the id of every key ever indexed, and the size never decreases
across any single access or `Reset`, nor across the whole run. -/
theorem sidetable_size_monotonic {T : Type} [Inhabited T]
    (ops : List (PhaseOp T)) (s : GrowingSidetable T) :
    s.table.length ≤ (runPhase s ops).table.length ∧
    (∀ (op : PhaseOp T) (s2 : GrowingSidetable T),
        s2.table.length ≤ (stepPhase s2 op).table.length) ∧
    (∀ op ∈ ops, ∀ i, op.touches = some i →
        i ≤ (runPhase s ops).table.length) := by
  refine ⟨GrowingSidetable.length_runPhase_ge ops s,
    fun op s2 => GrowingSidetable.length_stepPhase_ge s2 op, ?_⟩
  intro op hmem i hi
  exact Nat.le_of_lt
    (GrowingSidetable.touches_lt_length_runPhase ops s op hmem i hi)

/-- Witness for C8: after reading key 10 and then resetting, the table size
is still at least 10. -/
theorem sidetable_size_monotonic_witness :
    10 ≤ (runPhase (GrowingSidetable.fresh Nat)
        [PhaseOp.readAt 10, PhaseOp.resetTable]).table.length :=
  (sidetable_size_monotonic [PhaseOp.readAt 10, PhaseOp.resetTable]
      (GrowingSidetable.fresh Nat)).2.2 (PhaseOp.readAt 10) (by decide)
      10 (by decide)

/-- C9: the const overload of `operator[]` has exactly the same growth
effect as the mutable overload: for every table state and key, the two
overloads leave the table in identical states and return the same value. -/
theorem sidetable_const_access_equiv {T : Type} [Inhabited T]
    (s : GrowingSidetable T) (i : Nat) :
    s.accessConst i = s.access i := rfl

/-- C10: `SwapData` exchanges only the backing storage of the two tables:
each table's debug-only graph binding is left unchanged, so accesses after
the swap are still validated against the graph recorded when that table
was constructed. -/
theorem sidetable_swap_preserves_graph {T : Type}
    (a b : GrowingOpIndexSidetable T) (c d : FixedOpIndexSidetable T)
    (idx : OpIndex) :
    (GrowingOpIndexSidetable.SwapData a b).1.graph = a.graph ∧
    (GrowingOpIndexSidetable.SwapData a b).2.graph = b.graph ∧
    (GrowingOpIndexSidetable.SwapData a b).1.accessCheck idx
        = a.accessCheck idx ∧
    (GrowingOpIndexSidetable.SwapData a b).2.accessCheck idx
        = b.accessCheck idx ∧
    (FixedOpIndexSidetable.SwapData c d).1.graph = c.graph ∧
    (FixedOpIndexSidetable.SwapData c d).2.graph = d.graph ∧
    (FixedOpIndexSidetable.SwapData c d).1.accessCheck idx
        = c.accessCheck idx ∧
    (FixedOpIndexSidetable.SwapData c d).2.accessCheck idx
        = d.accessCheck idx :=
  ⟨rfl, rfl, rfl, rfl, rfl, rfl, rfl, rfl⟩
